import Mathlib

/-!
Shallow embedding of `src/get.py` (jetbrains-downloader) and proofs about it.

The program mirrors JetBrains product installers and plugin packages to local
storage.  This file embeds the pure/algorithmic parts the specification talks
about — build-string parsing, the since/until compatibility test, compatible
plugin-update selection, the idempotent/self-cleaning download pipeline, the
per-OS download lookup, the unknown-file diff ordering, and the top-level
error handling — and proves or refutes the frozen specification claims.

Python strings are modelled through their character lists (code points), so
that every operation evaluates inside the kernel; Python exceptions are
modelled with `Except`.
-/

namespace JBGet

/-- Exceptions of the program, split the way the program's handlers split them:
`app` is the program's own `AppError` (the only thing the top-level handler in
`main` catches), `py` is every other interpreter-level exception
(`AttributeError`, `ValueError`, ...), which nothing in the program catches. -/
inductive Err where
  | app (msg : String)
  | py (msg : String)
deriving DecidableEq

/-- Equality of `Except` results is decidable (used to evaluate the embedded
functions on concrete inputs). -/
instance {ε : Type} {α : Type} [DecidableEq ε] [DecidableEq α] :
    DecidableEq (Except ε α) := fun x y =>
  match x, y with
  | .ok a, .ok b => if h : a = b then isTrue (by rw [h]) else isFalse (by simp [h])
  | .error a, .error b => if h : a = b then isTrue (by rw [h]) else isFalse (by simp [h])
  | .ok _, .error _ => isFalse (by simp)
  | .error _, .ok _ => isFalse (by simp)

/-! ### Python string primitives

`str.split`, `str.strip` and `int()` as used by `get.py`, over `List Char`. -/

/-- Python `s.split(sep)` for a one-character separator.
`"".split('.') == ['']`, `"1.".split('.') == ['1', '']`. -/
def pySplit (sep : Char) : List Char → List (List Char)
  | [] => [[]]
  | c :: cs =>
      match pySplit sep cs with
      | [] => [[]]
      | r :: rs => if c = sep then [] :: r :: rs else (c :: r) :: rs

/-- Characters Python's default `str.strip()` removes (ASCII whitespace). -/
def pyIsSpace (c : Char) : Bool := [32, 9, 10, 13, 11, 12].contains c.toNat

/-- Python `s.strip()`: drop whitespace from both ends. -/
def pyStrip (s : List Char) : List Char :=
  ((s.dropWhile pyIsSpace).reverse.dropWhile pyIsSpace).reverse

/-- Decimal digit test on a character. -/
def pyIsDigit (c : Char) : Bool := 48 ≤ c.toNat && c.toNat ≤ 57

/-- Python `int(x)` restricted to the unsigned decimal literals this program
feeds it: surrounding whitespace is ignored, a nonempty all-digit string yields
its value, anything else raises `ValueError`. -/
def pyInt (x : List Char) : Except Err Nat :=
  let t := pyStrip x
  if !t.isEmpty && t.all pyIsDigit then
    .ok (t.foldl (fun acc c => 10 * acc + (c.toNat - 48)) 0)
  else .error (.py "ValueError: invalid literal for int")

/-! ### Build tuples and the since/until compatibility test

`JetBrainsApi.get_build_tuple` and `JetBrainsApi.is_build_between`. -/

/-- `JetBrainsApi.get_build_tuple(build)`:
`tuple(int(x) for x in build.split('.') if x.strip() not in ('*', ''))`.
The field it is fed from (`JBPluginUpdate.since` / `.until`) defaults to
`None` when the API omits it; called on `None`, `build.split` raises
`AttributeError` (`None` has no `.split`), hence the `Option` argument. -/
def get_build_tuple : Option String → Except Err (List Nat)
  | none => .error (.py "AttributeError: NoneType has no attribute split")
  | some build =>
      ((pySplit '.' build.data).filter
        (fun x => !(pyStrip x == ['*'] || pyStrip x == []))).mapM pyInt

/-- Python tuple `<=` on int tuples: lexicographic, and a proper prefix
compares smaller than its extensions.  This is the `low = since <= target`
comparison of `is_build_between`. -/
def pyTupleLe : List Nat → List Nat → Bool
  | [], _ => true
  | _ :: _, [] => false
  | a :: as, b :: bs => if a < b then true else if a > b then false else pyTupleLe as bs

/-- The `high` loop of `JetBrainsApi.is_build_between`: walk
`zip(target, until)`; the first strictly smaller target element settles `True`,
the first strictly larger one settles `False`, and if the zip runs out (either
tuple exhausted) `high` keeps its initial `True`. -/
def highCheck : List Nat → List Nat → Bool
  | t :: ts, u :: us => if t < u then true else if t > u then false else highCheck ts us
  | _, _ => true

/-- `JetBrainsApi.is_build_between(since, target, until)`:
`low = since <= target`, `high` from the zip walk, result `low and high`.
(`until` is a Lean keyword, hence the parameter name `until_`.) -/
def is_build_between (since target until_ : List Nat) : Bool :=
  pyTupleLe since target && highCheck target until_

/-! ### Plugin updates and compatible-update selection

`JBPluginUpdate`, `App.is_plugin_update_compatible_with` and
`App.find_compatible_plugin_update`. -/

/-- `JBPluginUpdate`: plugin update record.  `timestamp_ms` is the `cdate`
creation timestamp; `since`/`until` default to `None` when the API response
omits them (pydantic `since: str = None`), hence the `Option`. -/
structure JBPluginUpdate where
  id : Nat
  version : String
  timestamp_ms : Nat
  since : Option String
  until_ : Option String
deriving DecidableEq

/-- `App.is_plugin_update_compatible_with(update, product_tuple)`: parse both
bounds with `get_build_tuple` and test `is_build_between`.  Exceptions raised
while parsing (e.g. `AttributeError` on an absent bound) propagate. -/
def is_plugin_update_compatible_with (update : JBPluginUpdate)
    (product_tuple : List Nat) : Except Err Bool := do
  let since ← get_build_tuple update.since
  let until_ ← get_build_tuple update.until_
  return is_build_between since product_tuple until_

/-- The `for update in updates` loop of `App.find_compatible_plugin_update`:
return the first update whose compatibility test is true. -/
def findCompatLoop (pt : List Nat) :
    List JBPluginUpdate → Except Err (Option JBPluginUpdate)
  | [] => .ok none
  | u :: rest => do
      let c ← is_plugin_update_compatible_with u pt
      if c then return (some u) else findCompatLoop pt rest

/-- `App.find_compatible_plugin_update(updates, product_build)`. -/
def find_compatible_plugin_update (updates : List JBPluginUpdate)
    (product_build : String) : Except Err (Option JBPluginUpdate) := do
  let product_tuple ← get_build_tuple (some product_build)
  findCompatLoop product_tuple updates

/-- Boolean form of "the compatibility check ran and returned true". -/
def isCompatOk (u : JBPluginUpdate) (pt : List Nat) : Bool :=
  match is_plugin_update_compatible_with u pt with
  | .ok true => true
  | _ => false

/-- Modelled from the spec's words for comparison with
`find_compatible_plugin_update`: among all updates whose compatibility check
returns true, select the one with the newest creation timestamp, resolving
timestamp ties by original list order. -/
def select_newest_compatible (updates : List JBPluginUpdate) (pt : List Nat) :
    Option JBPluginUpdate :=
  (updates.filter (fun u => isCompatOk u pt)).foldl
    (fun best u =>
      match best with
      | none => some u
      | some b => if b.timestamp_ms < u.timestamp_ms then some u else some b)
    none

/-! ### Helper lemmas about the bound checks -/

/-- The zip walk returns `True` when `until` is exhausted. -/
theorem highCheck_nil (t : List Nat) : highCheck t [] = true := by
  cases t <;> rfl

/-- The zip walk ignores a common prefix of equal elements. -/
theorem highCheck_append (p bs us : List Nat) :
    highCheck (p ++ bs) (p ++ us) = highCheck bs us := by
  induction p with
  | nil => rfl
  | cons a p ih => simp [highCheck, ih]

/-- A build that extends `until` by arbitrary extra segments passes the walk. -/
theorem highCheck_self_append (p bs : List Nat) :
    highCheck (p ++ bs) p = true := by
  induction p with
  | nil => exact highCheck_nil bs
  | cons a p ih => simp [highCheck, ih]

/-- With an empty (absent) `since`, `is_build_between` is exactly the upper
bound walk. -/
theorem is_build_between_nil_since (t u : List Nat) :
    is_build_between [] t u = highCheck t u := by
  simp [is_build_between, pyTupleLe]

/-- C2: for every build tuple and present until tuple, the upper-bound check
follows the most-significant-difference-wins rule.  With an always-satisfied
empty `since`, `is_build_between` is the upper-bound check alone: at the first
index where the build element is smaller the bound is satisfied, at the first
index where it is larger the bound fails, and when the two tuples agree up to
the exhaustion of `until` the bound is satisfied — in particular a build tuple
strictly longer than `until` (such as `(1,5,3)` against `(1,5)`, the case
`bs ≠ []`) does not fail by length alone. -/
theorem c2_upper_bound_most_significant_difference
    (p bs us : List Nat) (x y : Nat) :
    (x < y → is_build_between [] (p ++ x :: bs) (p ++ y :: us) = true)
    ∧ (y < x → is_build_between [] (p ++ x :: bs) (p ++ y :: us) = false)
    ∧ is_build_between [] (p ++ bs) p = true := by
  refine ⟨fun h => ?_, fun h => ?_, ?_⟩
  · rw [is_build_between_nil_since, highCheck_append]
    simp [highCheck, h]
  · rw [is_build_between_nil_since, highCheck_append]
    simp [highCheck, h, Nat.not_lt_of_lt h]
  · rw [is_build_between_nil_since, highCheck_self_append]

/-- Witness for C2: first differing index smaller ⇒ satisfied (builds `(0,9)`
against until `(1)`), and the boundary case build `(1,5,3)` against until
`(1,5)` satisfied despite being longer. -/
theorem c2_upper_bound_most_significant_difference_witness :
    0 < 1 ∧ is_build_between [] [0, 9] [1] = true
    ∧ is_build_between [] [1, 5, 3] [1, 5] = true :=
  ⟨by decide,
   (c2_upper_bound_most_significant_difference [] [9] [] 0 1).1 (by decide),
   (c2_upper_bound_most_significant_difference [1, 5] [3] [] 0 0).2.2⟩

/-- C4 counterexample: build `(1,0)` against since `(1,0,5)` (until absent,
so the upper bound is trivially satisfied) FAILS the check, because Python's
tuple `<=` makes the longer `(1,0,5)` strictly greater than its proper prefix
`(1,0)` — the code does not restrict the comparison to the shared-length
prefix as the claim states. -/
theorem c4_lower_bound_counterexample :
    is_build_between [1, 0, 5] [1, 0] [] = false
    ∧ highCheck [1, 0] [] = true
    ∧ pyTupleLe [1, 0, 5] [1, 0] = false := by decide

/-- C4 amended: with an absent `until`, the check holds iff `since ≤ build`
under full lexicographic tuple ordering, in which a proper prefix compares
strictly below its extensions (so build `(1,0)` against since `(1,0,5)`
fails the lower bound). -/
theorem c4_lower_bound_full_lexicographic (since build : List Nat) :
    is_build_between since build [] = true
      ↔ (since = build ∨ List.Lex (· < ·) since build) := by
  rw [show is_build_between since build [] = pyTupleLe since build by
    simp [is_build_between, highCheck_nil]]
  induction since generalizing build with
  | nil =>
      cases build with
      | nil => simp [pyTupleLe]
      | cons b bs => simp [pyTupleLe, List.Lex.nil]
  | cons a as ih =>
      cases build with
      | nil =>
          simp only [pyTupleLe, Bool.false_eq_true, false_iff]
          rintro (h | h)
          · exact List.noConfusion h
          · cases h
      | cons b bs =>
          simp only [pyTupleLe]
          rcases Nat.lt_trichotomy a b with h | h | h
          · simp only [if_pos h, true_iff]
            exact Or.inr (List.Lex.rel h)
          · subst h
            simp only [if_neg (Nat.lt_irrefl a), ih bs, true_iff]
            constructor
            · rintro (h | h)
              · exact Or.inl (by rw [h])
              · exact Or.inr (List.Lex.cons h)
            · rintro (h | h)
              · exact Or.inl (by injection h)
              · cases h with
                | cons h => exact Or.inr h
                | rel h => exact absurd h (Nat.lt_irrefl a)
          · simp only [if_neg (Nat.lt_asymm h), if_pos h, Bool.false_eq_true, false_iff]
            rintro (he | hl)
            · injection he with h1 h2
              exact absurd h1.symm (Nat.ne_of_lt h)
            · cases hl with
              | cons h' => exact absurd rfl (Nat.ne_of_lt h)
              | rel h' => exact absurd h' (Nat.lt_asymm h)

/-! ### C1: which compatible update is selected -/

/-- Compatible update with the older creation timestamp, listed first. -/
def updOldFirst : JBPluginUpdate := ⟨1, "v1", 100, some "1.0", some ""⟩

/-- Compatible update with the newer creation timestamp, listed second. -/
def updNewSecond : JBPluginUpdate := ⟨2, "v2", 200, some "1.0", some ""⟩

/-- C1 counterexample: with two compatible updates at timestamps 100 (first in
the list) and 200 (second), `find_compatible_plugin_update` returns the FIRST
one in list order, not the one with the newest creation timestamp that the
claim (and the spec-side selector) demands. -/
theorem c1_counterexample_first_not_newest :
    find_compatible_plugin_update [updOldFirst, updNewSecond] "1.0"
      = .ok (some updOldFirst)
    ∧ select_newest_compatible [updOldFirst, updNewSecond] [1, 0]
      = some updNewSecond
    ∧ get_build_tuple (some "1.0") = .ok [1, 0]
    ∧ isCompatOk updNewSecond [1, 0] = true
    ∧ updOldFirst.timestamp_ms < updNewSecond.timestamp_ms
    ∧ updOldFirst ≠ updNewSecond := by decide

/-- C1 amended: the update selected for download is the first compatible
update in original list order (timestamps are never consulted).  Stated for
runs where the product build parses and every compatibility test returns
without an exception. -/
theorem c1_selects_first_compatible_in_list_order
    (updates : List JBPluginUpdate) (product_build : String) (pt : List Nat)
    (hp : get_build_tuple (some product_build) = .ok pt)
    (hok : ∀ u ∈ updates, (is_plugin_update_compatible_with u pt).isOk = true) :
    find_compatible_plugin_update updates product_build
      = .ok (updates.find? (fun u => isCompatOk u pt)) := by
  unfold find_compatible_plugin_update
  rw [hp]
  show findCompatLoop pt updates = _
  induction updates with
  | nil => rfl
  | cons u rest ih =>
      have hu := hok u (List.mem_cons_self u rest)
      have hrest : ∀ v ∈ rest, (is_plugin_update_compatible_with v pt).isOk = true :=
        fun v hv => hok v (List.mem_cons_of_mem u hv)
      match hc : is_plugin_update_compatible_with u pt with
      | .error e => rw [hc] at hu; simp [Except.isOk, Except.toBool] at hu
      | .ok b =>
          cases b with
          | true =>
              have hflag : isCompatOk u pt = true := by unfold isCompatOk; rw [hc]
              simp [findCompatLoop, hc, List.find?_cons, hflag]
              rfl
          | false =>
              have hflag : isCompatOk u pt = false := by unfold isCompatOk; rw [hc]
              simp only [findCompatLoop, hc, List.find?_cons, hflag]
              show findCompatLoop pt rest = _
              exact ih hrest

/-- Witness for C1's amended theorem at a concrete input: the first-listed
compatible update (timestamp 100) is exactly what `List.find?` of the
compatibility flag returns. -/
theorem c1_selects_first_compatible_in_list_order_witness :
    get_build_tuple (some "1.0") = .ok [1, 0]
    ∧ (∀ u ∈ [updOldFirst, updNewSecond],
        (is_plugin_update_compatible_with u [1, 0]).isOk = true)
    ∧ find_compatible_plugin_update [updOldFirst, updNewSecond] "1.0"
      = .ok ([updOldFirst, updNewSecond].find? (fun u => isCompatOk u [1, 0])) :=
  ⟨by decide, by decide,
   c1_selects_first_compatible_in_list_order [updOldFirst, updNewSecond] "1.0" [1, 0]
     (by decide) (by decide)⟩

/-! ### C3: absent bounds -/

/-- Plugin update whose `since` field is absent (the pydantic default `None`),
as delivered for updates where the API response has no `since` key. -/
def updAbsentSince : JBPluginUpdate := ⟨3, "v3", 1, none, some "1.5.*"⟩

/-- C3 counterexample: on an update whose `since` bound is absent (None), the
compatibility check does not return a boolean — `None.split('.')` inside
`get_build_tuple` raises `AttributeError`, an interpreter-level exception that
not even the top-level `AppError` handler catches. -/
theorem c3_counterexample_absent_bound_raises :
    is_plugin_update_compatible_with updAbsentSince [1, 5, 3]
      = .error (.py "AttributeError: NoneType has no attribute split") := by decide

/-- C3 amended: a bound that is absent as the empty string parses to the empty
tuple and acts as an always-satisfied no-constraint value, and the check then
returns a boolean without raising: an empty `since` leaves exactly the upper
bound walk, an empty `until` leaves exactly the lower bound comparison, and
with both empty the check is `true` — but a bound absent at the field level
(None) makes the check raise instead (see the counterexample). -/
theorem c3_empty_string_bounds_no_constraint
    (t sts uts : List Nat) (sinceS untilS : String)
    (hs : get_build_tuple (some sinceS) = .ok sts)
    (hu : get_build_tuple (some untilS) = .ok uts) :
    is_plugin_update_compatible_with ⟨0, "", 0, some "", some untilS⟩ t
      = .ok (highCheck t uts)
    ∧ is_plugin_update_compatible_with ⟨0, "", 0, some sinceS, some ""⟩ t
      = .ok (pyTupleLe sts t)
    ∧ is_plugin_update_compatible_with ⟨0, "", 0, some "", some ""⟩ t
      = .ok true := by
  have hempty : get_build_tuple (some "") = .ok [] := rfl
  refine ⟨?_, ?_, ?_⟩
  · show (do
      let since ← get_build_tuple (some "")
      let until_ ← get_build_tuple (some untilS)
      return is_build_between since t until_) = _
    rw [hempty, hu]
    show Except.ok (is_build_between [] t uts) = _
    rw [is_build_between_nil_since]
  · show (do
      let since ← get_build_tuple (some sinceS)
      let until_ ← get_build_tuple (some "")
      return is_build_between since t until_) = _
    rw [hs, hempty]
    show Except.ok (is_build_between sts t []) = _
    simp [is_build_between, highCheck_nil]
  · show (do
      let since ← get_build_tuple (some "")
      let until_ ← get_build_tuple (some "")
      return is_build_between since t until_) = _
    rw [hempty]
    show Except.ok (is_build_between [] t []) = _
    simp [is_build_between_nil_since, highCheck_nil]

/-- Witness for C3's amended theorem, at the spec's own boundary case: build
`(1,5,3)` with an empty `since` and `until = "1.5.*"` (which parses to
`(1,5)`) is compatible, and no exception is raised. -/
theorem c3_empty_string_bounds_no_constraint_witness :
    get_build_tuple (some "1.0") = .ok [1, 0]
    ∧ get_build_tuple (some "1.5.*") = .ok [1, 5]
    ∧ is_plugin_update_compatible_with ⟨0, "", 0, some "", some "1.5.*"⟩ [1, 5, 3]
      = .ok (highCheck [1, 5, 3] [1, 5])
    ∧ is_plugin_update_compatible_with ⟨0, "", 0, some "1.0", some ""⟩ [1, 5, 3]
      = .ok (pyTupleLe [1, 0] [1, 5, 3])
    ∧ highCheck [1, 5, 3] [1, 5] = true :=
  ⟨by decide, by decide,
   (c3_empty_string_bounds_no_constraint [1, 5, 3] [1, 0] [1, 5] "1.0" "1.5.*"
     (by decide) (by decide)).1,
   (c3_empty_string_bounds_no_constraint [1, 5, 3] [1, 0] [1, 5] "1.0" "1.5.*"
     (by decide) (by decide)).2.1,
   by decide⟩

/-! ### Download pipeline

`JetBrainsApi.download_file` and `App.download_product_release_os_archive`,
with the target directory's contents and the HTTP traffic made explicit. -/

/-- Contents of the target directory: file name ↦ byte size on disk. -/
abbrev DirFiles := List (String × Nat)

/-- `Path.unlink(missing_ok=True)`: afterwards no file of that name remains. -/
def removeFile (name : String) (fs : DirFiles) : DirFiles :=
  fs.filter (fun e => !(e.1 == name))

/-- State threaded through a download: the directory contents and how many
HTTP requests `session.send` has issued. -/
structure DLState where
  fs : DirFiles
  sentRequests : Nat
deriving DecidableEq

/-- What happens to `shutil.copyfileobj` when the body is streamed to disk:
it either completes, or raises after writing a prefix of `written` bytes. -/
inductive CopyOutcome where
  | complete
  | failAfter (written : Nat)
deriving DecidableEq

/-- Behaviour of the network for one URL: `session.send` itself raises, or the
server answers with an effective (post-redirect) URL path and a body of
`bodySize` bytes whose streaming may in turn fail. -/
inductive NetBehavior where
  | sendFail
  | respond (finalPath : String) (bodySize : Nat) (copy : CopyOutcome)
deriving DecidableEq

/-- `os.path.basename(urlparse(response.request.url).path)`: the text after
the last `/` of the effective URL's path. -/
def pyBasename (p : String) : String := ((pySplit '/' p.data).getLastD []).asString

/-- `JetBrainsApi.download_file(url, directory)`: send the request, resolve
the final filename from the response's effective URL, return early if a file
of that name already exists (idempotent skip — note the skip check runs only
AFTER `session.send`), otherwise stream the body to disk.  Any exception once
`target` is bound unlinks the (possibly partial) file and is re-raised as
`AppError`; `directory.mkdir` is not modelled (it holds no files and the
claims are about the directory's contents). -/
def download_file (beh : NetBehavior) (url : String) (s : DLState) :
    Except Err String × DLState :=
  match beh with
  | .sendFail =>
      -- session.send raised; target is still None, nothing to unlink
      (.error (.app ("Failed to download " ++ url ++ ", eventual file None was purged")),
       { s with sentRequests := s.sentRequests + 1 })
  | .respond finalPath bodySize copy =>
      let s1 : DLState := { s with sentRequests := s.sentRequests + 1 }
      let file := pyBasename finalPath
      if (s1.fs.lookup file).isSome then
        (.ok file, s1)
      else
        match copy with
        | .complete => (.ok file, { s1 with fs := (file, bodySize) :: s1.fs })
        | .failAfter written =>
            -- copyfileobj raised mid-stream; the except clause unlinks target
            (.error (.app ("Failed to download " ++ url ++ ", eventual file "
                ++ file ++ " was purged")),
             { s1 with fs := removeFile file ((file, written) :: s1.fs) })

/-- `App.download_product_release_os_archive(link, os_dir, size)`: download,
then compare `file.stat().st_size` with the API-declared size; a mismatch
unlinks the archive and raises `AppError`, a match records the file into
`known_files`. -/
def download_product_release_os_archive (beh : NetBehavior) (link : String)
    (size : Nat) (s : DLState) (known_files : List String) :
    Except Err String × DLState × List String :=
  match download_file beh link s with
  | (.error e, s') => (.error e, s', known_files)
  | (.ok file, s') =>
      match s'.fs.lookup file with
      | none =>
          -- unreachable: download_file only returns ok when the file exists
          (.error (.py "FileNotFoundError: stat"), s', known_files)
      | some actual =>
          if actual ≠ size then
            (.error (.app ("Downloaded " ++ file ++ " has the wrong size, and was removed")),
             { s' with fs := removeFile file s'.fs }, known_files)
          else (.ok file, s', file :: known_files)

/-! ### Helper lemmas about directory contents -/

/-- A name that `lookup` misses appears on no entry. -/
theorem forall_ne_of_lookup_none (name : String) (fs : DirFiles)
    (h : fs.lookup name = none) : ∀ e ∈ fs, ¬(e.1 = name) := by
  induction fs with
  | nil => intro e he; cases he
  | cons e fs ih =>
      intro e' he'
      rw [show e = (e.1, e.2) from rfl, List.lookup_cons] at h
      cases hbeq : name == e.1 with
      | true => rw [hbeq] at h; cases h
      | false =>
          rw [hbeq] at h
          cases he' with
          | head =>
              intro heq
              rw [beq_eq_false_iff_ne] at hbeq
              exact hbeq heq.symm
          | tail _ hmem => exact ih h e' hmem

/-- Unlinking a name that is not present leaves the directory unchanged. -/
theorem removeFile_of_lookup_none (name : String) (fs : DirFiles)
    (h : fs.lookup name = none) : removeFile name fs = fs := by
  unfold removeFile
  rw [List.filter_eq_self]
  intro e he
  simpa [beq_eq_false_iff_ne] using forall_ne_of_lookup_none name fs h e he

/-- After unlinking a name, it is gone. -/
theorem lookup_removeFile (name : String) (fs : DirFiles) :
    (removeFile name fs).lookup name = none := by
  induction fs with
  | nil => rfl
  | cons e fs ih =>
      unfold removeFile at *
      cases hbeq : e.1 == name with
      | true => simpa [List.filter, hbeq] using ih
      | false =>
          have hne : (name == e.1) = false := by
            rw [beq_eq_false_iff_ne] at hbeq ⊢
            exact fun hx => hbeq hx.symm
          rw [show e = (e.1, e.2) from rfl]
          simp only [List.filter, hbeq, Bool.not_false, List.lookup_cons, hne]
          exact ih

/-! ### C5, C6, C7: download behaviour -/

/-- C5 counterexample: downloading the same URL twice into the same directory
does skip the second body transfer and return the same path with the
directory unchanged — but it does NOT perform network I/O only once: the
`session.send` needed to resolve the final filename runs on BOTH calls, so
two HTTP requests are issued, not one. -/
theorem c5_counterexample_request_sent_twice :
    (let beh := NetBehavior.respond "plugins/pkg.zip" 100 .complete
     let first := download_file beh "https://host/pkg" ⟨[], 0⟩
     let second := download_file beh "https://host/pkg" first.2
     first.1 = .ok "pkg.zip"
     ∧ second.1 = .ok "pkg.zip"
     ∧ second.2.fs = first.2.fs
     ∧ second.2.sentRequests = 2
     ∧ ¬second.2.sentRequests = 1) := by decide

/-- C5 amended: when the server responds with the same effective path both
times and the resolved name is not yet on disk, the second call finds the
file, skips the transfer entirely and returns the same path with the
directory unchanged — but each call issues one HTTP request, so two requests
cross the network in total. -/
theorem c5_second_call_skips_transfer (finalPath url : String) (bodySize : Nat)
    (s : DLState) (h : s.fs.lookup (pyBasename finalPath) = none) :
    (let beh := NetBehavior.respond finalPath bodySize .complete
     let first := download_file beh url s
     let second := download_file beh url first.2
     first.1 = .ok (pyBasename finalPath)
     ∧ second.1 = .ok (pyBasename finalPath)
     ∧ second.2.fs = first.2.fs
     ∧ second.2.sentRequests = s.sentRequests + 2) := by
  have h1 : download_file (.respond finalPath bodySize .complete) url s
      = (.ok (pyBasename finalPath),
         ⟨(pyBasename finalPath, bodySize) :: s.fs, s.sentRequests + 1⟩) := by
    unfold download_file
    simp [h]
  have h2 : download_file (.respond finalPath bodySize .complete) url
      ⟨(pyBasename finalPath, bodySize) :: s.fs, s.sentRequests + 1⟩
      = (.ok (pyBasename finalPath),
         ⟨(pyBasename finalPath, bodySize) :: s.fs, s.sentRequests + 1 + 1⟩) := by
    unfold download_file
    simp [List.lookup_cons]
  simp only [h1, h2]
  exact ⟨by trivial, by trivial, by trivial, by trivial⟩

/-- Witness for C5's amended theorem on a concrete run from an empty
directory. -/
theorem c5_second_call_skips_transfer_witness :
    ((⟨[], 0⟩ : DLState).fs.lookup (pyBasename "plugins/pkg.zip") = none)
    ∧ (let beh := NetBehavior.respond "plugins/pkg.zip" 100 .complete
       let first := download_file beh "https://host/pkg" ⟨[], 0⟩
       let second := download_file beh "https://host/pkg" first.2
       first.1 = .ok (pyBasename "plugins/pkg.zip")
       ∧ second.1 = .ok (pyBasename "plugins/pkg.zip")
       ∧ second.2.fs = first.2.fs
       ∧ second.2.sentRequests = (0 : Nat) + 2) :=
  ⟨by decide,
   c5_second_call_skips_transfer "plugins/pkg.zip" "https://host/pkg" 100 ⟨[], 0⟩
     (by decide)⟩

/-- C7: a download that fails during the transfer — whether `session.send`
itself raises or the body streaming fails partway — leaves the directory's
contents exactly as they were before the call (the partial file, if any, is
unlinked) and propagates the failure as the program's `AppError`. -/
theorem c7_failed_download_leaves_directory_unchanged
    (beh : NetBehavior) (url : String) (s : DLState)
    (hfail : (download_file beh url s).1.isOk = false) :
    (download_file beh url s).2.fs = s.fs
    ∧ ∃ msg, (download_file beh url s).1 = .error (.app msg) := by
  cases beh with
  | sendFail => exact ⟨rfl, _, rfl⟩
  | respond finalPath bodySize copy =>
      cases hlk : s.fs.lookup (pyBasename finalPath) with
      | some v =>
          exfalso
          unfold download_file at hfail
          simp [hlk, Except.isOk, Except.toBool] at hfail
      | none =>
          cases copy with
          | complete =>
              exfalso
              unfold download_file at hfail
              simp [hlk, Except.isOk, Except.toBool] at hfail
          | failAfter written =>
              have hfs : (download_file (.respond finalPath bodySize (.failAfter written))
                  url s).2.fs
                  = removeFile (pyBasename finalPath)
                      ((pyBasename finalPath, written) :: s.fs) := by
                unfold download_file
                simp [hlk]
              constructor
              · rw [hfs]
                unfold removeFile
                simp only [List.filter, beq_self_eq_true, Bool.not_true]
                exact removeFile_of_lookup_none _ _ hlk
              · exact ⟨"Failed to download " ++ url ++ ", eventual file "
                  ++ pyBasename finalPath ++ " was purged",
                  by unfold download_file; simp [hlk]⟩

/-- Witness for C7: a transfer into a directory holding one unrelated file
fails after 3 bytes; the partial file is purged, the unrelated file survives,
and an `AppError` is raised. -/
theorem c7_failed_download_leaves_directory_unchanged_witness :
    ((download_file (.respond "dir/f.bin" 10 (.failAfter 3)) "u"
        ⟨[("other", 5)], 0⟩).1.isOk = false)
    ∧ (download_file (.respond "dir/f.bin" 10 (.failAfter 3)) "u"
        ⟨[("other", 5)], 0⟩).2.fs = [("other", 5)]
    ∧ ∃ msg, (download_file (.respond "dir/f.bin" 10 (.failAfter 3)) "u"
        ⟨[("other", 5)], 0⟩).1 = .error (.app msg) :=
  ⟨by decide,
   (c7_failed_download_leaves_directory_unchanged _ _ _ (by decide)).1,
   (c7_failed_download_leaves_directory_unchanged _ _ _ (by decide)).2⟩

/-- C6: when the archive on disk has a byte size different from the
API-declared one, `download_product_release_os_archive` unlinks the archive —
no file of that name remains in the directory — and raises the size-mismatch
`AppError`, which is fatal to the product. -/
theorem c6_size_mismatch_deletes_archive (beh : NetBehavior) (link : String)
    (size : Nat) (s : DLState) (known_files : List String) (file : String)
    (s' : DLState) (actual : Nat)
    (hdl : download_file beh link s = (.ok file, s'))
    (hstat : s'.fs.lookup file = some actual)
    (hmismatch : actual ≠ size) :
    (download_product_release_os_archive beh link size s known_files).1
      = .error (.app ("Downloaded " ++ file ++ " has the wrong size, and was removed"))
    ∧ (download_product_release_os_archive beh link size s known_files).2.1.fs.lookup file
      = none := by
  unfold download_product_release_os_archive
  simp only [hdl, hstat, if_pos hmismatch]
  exact ⟨by trivial, lookup_removeFile file s'.fs⟩

/-- Witness for C6: a 50-byte download against a declared size of 60 ends in
the size-mismatch error with the archive gone. -/
theorem c6_size_mismatch_deletes_archive_witness :
    (download_file (.respond "d/f.zip" 50 .complete) "l" ⟨[], 0⟩
      = (.ok "f.zip", ⟨[("f.zip", 50)], 1⟩))
    ∧ (50 : Nat) ≠ 60
    ∧ (download_product_release_os_archive (.respond "d/f.zip" 50 .complete) "l" 60
        ⟨[], 0⟩ []).1
      = .error (.app ("Downloaded " ++ "f.zip" ++ " has the wrong size, and was removed"))
    ∧ (download_product_release_os_archive (.respond "d/f.zip" 50 .complete) "l" 60
        ⟨[], 0⟩ []).2.1.fs.lookup "f.zip" = none :=
  ⟨by decide, by decide,
   (c6_size_mismatch_deletes_archive _ _ 60 _ [] "f.zip" ⟨[("f.zip", 50)], 1⟩ 50
     (by decide) (by decide) (by decide)).1,
   (c6_size_mismatch_deletes_archive _ _ 60 _ [] "f.zip" ⟨[("f.zip", 50)], 1⟩ 50
     (by decide) (by decide) (by decide)).2⟩

/-! ### C9: per-OS download lookup

`JBProductReleaseDownload`, `App.get_release_download_info`, and the first use
of the looked-up value inside `App.download_product_release_os`. -/

/-- `JBProductReleaseDownloadInfo`: per-OS entry of a release. -/
structure JBProductReleaseDownloadInfo where
  link : String
  size : Nat
  checksum_link : String
deriving DecidableEq

/-- `JBProductReleaseDownload`: "some release are missing platforms" — each
per-OS field defaults to `None`, so the attribute always EXISTS on the model,
possibly holding `None`. -/
structure JBProductReleaseDownload where
  linux : Option JBProductReleaseDownloadInfo := none
  windows : Option JBProductReleaseDownloadInfo := none
deriving DecidableEq

/-- `App.get_release_download_info(downloads, id_os)`:
`getattr(downloads, id_os)` under `try/except AttributeError`, the except arm
re-raising `AppError('Unknown OS ...')`.  `linux` and `windows` are attributes
of the model, so for them `getattr` succeeds and returns the field's value —
`None` included; only an id_os that is not a model field takes the
`AttributeError` → `AppError` path. -/
def get_release_download_info (downloads : JBProductReleaseDownload)
    (id_os : String) : Except Err (Option JBProductReleaseDownloadInfo) :=
  if id_os = "linux" then .ok downloads.linux
  else if id_os = "windows" then .ok downloads.windows
  else .error (.app ("Unknown OS " ++ id_os))

/-- The code path from `App.download_product_release_os` that consumes the
looked-up entry: its first use is `info.link` (passed to download), which on
`None` raises `AttributeError` — an exception no caller catches. -/
def release_download_link (downloads : JBProductReleaseDownload)
    (id_os : String) : Except Err String := do
  let info ← get_release_download_info downloads id_os
  match info with
  | none => .error (.py "AttributeError: NoneType has no attribute link")
  | some i => .ok i.link

/-- C9: evaluation at the failing input.  For a release that simply lacks the
linux download, the per-OS lookup does NOT fail with the unknown-OS
application error — it returns the absent value successfully, and the
subsequent field access raises a language-level attribute fault instead
(which, being no `AppError`, escapes the top-level handler).  Only an OS key
that is not a field of the model (e.g. "mac") produces the `AppError`. -/
theorem c9_missing_platform_is_not_app_error :
    get_release_download_info ⟨none, none⟩ "linux" = .ok none
    ∧ release_download_link ⟨none, none⟩ "linux"
      = .error (.py "AttributeError: NoneType has no attribute link")
    ∧ get_release_download_info ⟨none, none⟩ "mac"
      = .error (.app "Unknown OS mac")
    ∧ release_download_link ⟨some ⟨"L", 1, "C"⟩, none⟩ "linux" = .ok "L" := by
  decide

/-! ### C10: top-level exit behaviour -/

/-- Outcome of one process run: the interpreter's exit status and what, if
anything, the top-level handler logged via `logging.error`. -/
structure ProcessOutcome where
  exitCode : Nat
  loggedError : Option String
deriving DecidableEq

/-- The module-level `main()`: `App().main()` inside `try/except AppError`,
the handler calling `logging.error(e)` and nothing else.  There is no
`sys.exit` anywhere, so Python falls off the end of `main` and the
interpreter exits with status 0 both on success and on a caught `AppError`;
only an exception that is not an `AppError` escapes and makes the
interpreter exit non-zero. -/
def mainEntry (appRun : Except Err Unit) : ProcessOutcome :=
  match appRun with
  | .ok _ => ⟨0, none⟩
  | .error (.app msg) => ⟨0, some msg⟩
  | .error (.py _) => ⟨1, none⟩

/-- C10 counterexample: a run that raises a core `AppError` is caught and
logged at the top level, but the process then terminates with exit status 0 —
a SUCCESS indication, not the failure indication the claim requires. -/
theorem c10_counterexample_error_exits_zero :
    mainEntry (.error (.app "boom")) = ⟨0, some "boom"⟩
    ∧ (mainEntry (.error (.app "boom"))).exitCode = 0
    ∧ ¬(mainEntry (.error (.app "boom"))).exitCode ≠ 0 := by decide

/-- C10 amended: the top-level entry point catches the uniform application
error and logs it, but terminates the process cleanly (exit status 0) in both
the success and the core-error case; no failure exit status is produced. -/
theorem c10_catches_logs_but_exits_clean (msg : String) :
    mainEntry (.error (.app msg)) = ⟨0, some msg⟩
    ∧ mainEntry (.ok ()) = ⟨0, none⟩ := ⟨rfl, rfl⟩

/-! ### C8: the unknown-files diff

`UnknownFilesTracker.get_unknown_files`: filesystem entries are the output of
`destination.rglob('*')`, each a path plus whether it is a directory. -/

/-- One entry seen under the artefact root. -/
structure FsEntry where
  path : String
  isDir : Bool
deriving DecidableEq

/-- Python string `<=` (code-point lexicographic, a prefix sorts first): the
comparison `sorted` applies to the path component of the sort keys. -/
def strLe : List Char → List Char → Bool
  | [], _ => true
  | _ :: _, [] => false
  | a :: as, b :: bs =>
      if a.toNat < b.toNat then true
      else if b.toNat < a.toNat then false
      else strLe as bs

/-- Python `<=` on paths via their text. -/
def pyStrLe (a b : String) : Bool := strLe a.data b.data

/-- The comparator `sorted(..., reverse=True)` effectively uses on the
`(not entry.is_dir(), entry)` keys: `keyGe a b` holds when `a` sorts no later
than `b`, i.e. `b <= a` in Python tuple order (`False < True` on the flag,
then the path text). -/
def keyGe (a b : Bool × String) : Bool :=
  if a.1 = b.1 then pyStrLe b.2 a.2 else a.1

/-- `keyGe` as a relation, for the sort. -/
def keyGeP (a b : Bool × String) : Prop := keyGe a b = true

instance : DecidableRel keyGeP := fun a b => by unfold keyGeP; infer_instance

/-- Reverse lexical order on paths alone, as a relation. -/
def strGeP (a b : String) : Prop := pyStrLe b a = true

instance : DecidableRel strGeP := fun a b => by unfold strGeP; infer_instance

/-- `UnknownFilesTracker.get_unknown_files(destination, known_files)`:
`sorted(((not entry.is_dir(), entry) for entry in destination.rglob('*') if
entry not in known_files), reverse=True)`, keeping the paths.  Python's
`sorted` is a stable comparison sort; `List.insertionSort` is stable under
the same comparator, and `keyGeP` is the reverse=True comparison. -/
def get_unknown_files (entries : List FsEntry) (known_files : List String) :
    List String :=
  (List.insertionSort keyGeP
    ((entries.filter (fun e => !(known_files.contains e.path))).map
      (fun e => (!e.isDir, e.path)))).map (fun p => p.2)

/-- Reverse lexical sort of paths (spec side). -/
def sortPathsDesc (l : List String) : List String := List.insertionSort strGeP l

/-- Modelled from the spec's words for comparison with `get_unknown_files`:
exactly the entries whose path is not known, all plain files first, then all
directories, each group in reverse lexical path order. -/
def diffSpec (entries : List FsEntry) (known_files : List String) : List String :=
  sortPathsDesc (((entries.filter (fun e => !(known_files.contains e.path))).filter
      (fun e => !e.isDir)).map (fun e => e.path))
    ++ sortPathsDesc (((entries.filter (fun e => !(known_files.contains e.path))).filter
      (fun e => e.isDir)).map (fun e => e.path))

/-! #### The comparator is a total order -/

theorem strLe_refl (a : List Char) : strLe a a = true := by
  induction a with
  | nil => rfl
  | cons c cs ih => simp [strLe, ih]

theorem strLe_total (a b : List Char) : strLe a b = true ∨ strLe b a = true := by
  induction a generalizing b with
  | nil => exact Or.inl rfl
  | cons x xs ih =>
      cases b with
      | nil => exact Or.inr rfl
      | cons y ys =>
          rcases Nat.lt_trichotomy x.toNat y.toNat with h | h | h
          · exact Or.inl (by simp [strLe, h])
          · rcases ih ys with hxy | hyx
            · exact Or.inl (by simp [strLe, h, Nat.lt_irrefl, hxy])
            · exact Or.inr (by simp [strLe, h, Nat.lt_irrefl, hyx])
          · exact Or.inr (by simp [strLe, h])

theorem strLe_trans {a b c : List Char} (hab : strLe a b = true)
    (hbc : strLe b c = true) : strLe a c = true := by
  induction a generalizing b c with
  | nil => rfl
  | cons x xs ih =>
      cases b with
      | nil => simp [strLe] at hab
      | cons y ys =>
          cases c with
          | nil => simp [strLe] at hbc
          | cons z zs =>
              simp only [strLe] at hab hbc ⊢
              rcases Nat.lt_trichotomy x.toNat y.toNat with h1 | h1 | h1
              · rcases Nat.lt_trichotomy y.toNat z.toNat with h2 | h2 | h2
                · simp [Nat.lt_trans h1 h2]
                · simp [h2 ▸ h1]
                · rw [if_neg (Nat.lt_asymm h2), if_pos h2] at hbc; cases hbc
              · rw [h1, if_neg (Nat.lt_irrefl _), if_neg (Nat.lt_irrefl _)] at hab
                rw [← h1] at hbc
                rcases Nat.lt_trichotomy x.toNat z.toNat with h2 | h2 | h2
                · simp [h2]
                · rw [h2] at hbc ⊢
                  rw [if_neg (Nat.lt_irrefl _), if_neg (Nat.lt_irrefl _)] at hbc
                  rw [if_neg (Nat.lt_irrefl _), if_neg (Nat.lt_irrefl _)]
                  exact ih hab hbc
                · rw [if_neg (Nat.lt_asymm h2), if_pos h2] at hbc; cases hbc
              · rw [if_neg (Nat.lt_asymm h1), if_pos h1] at hab; cases hab

theorem strLe_antisymm {a b : List Char} (hab : strLe a b = true)
    (hba : strLe b a = true) : a = b := by
  induction a generalizing b with
  | nil => cases b with
      | nil => rfl
      | cons y ys => simp [strLe] at hba
  | cons x xs ih =>
      cases b with
      | nil => simp [strLe] at hab
      | cons y ys =>
          simp only [strLe] at hab hba
          rcases Nat.lt_trichotomy x.toNat y.toNat with h | h | h
          · rw [if_neg (Nat.lt_asymm h), if_pos h] at hba; cases hba
          · have hxy : x = y := by
              apply Char.ext; apply UInt32.ext; exact h
            subst hxy
            rw [if_neg (Nat.lt_irrefl _), if_neg (Nat.lt_irrefl _)] at hab hba
            rw [ih hab hba]
          · rw [if_neg (Nat.lt_asymm h), if_pos h] at hab; cases hab

instance : IsTotal String strGeP :=
  ⟨fun a b => by unfold strGeP pyStrLe; exact strLe_total b.data a.data⟩

instance : IsTrans String strGeP :=
  ⟨fun a b c hab hbc => by
    unfold strGeP pyStrLe at *
    exact strLe_trans hbc hab⟩

instance : IsAntisymm String strGeP :=
  ⟨fun a b hab hba => by
    unfold strGeP pyStrLe at hab hba
    exact String.ext (strLe_antisymm hba hab)⟩

instance : IsTotal (Bool × String) keyGeP :=
  ⟨fun a b => by
    unfold keyGeP keyGe
    by_cases h : a.1 = b.1
    · rw [if_pos h, if_pos h.symm]
      exact strLe_total b.2.data a.2.data
    · rw [if_neg h, if_neg (fun hx => h hx.symm)]
      cases ha : a.1 with
      | true => exact Or.inl rfl
      | false =>
          cases hb : b.1 with
          | true => exact Or.inr rfl
          | false => exact absurd (ha.trans hb.symm) h⟩

instance : IsTrans (Bool × String) keyGeP :=
  ⟨fun a b c hab hbc => by
    unfold keyGeP keyGe at *
    by_cases h1 : a.1 = b.1
    · by_cases h2 : b.1 = c.1
      · rw [if_pos h1] at hab
        rw [if_pos h2] at hbc
        rw [if_pos (h1.trans h2)]
        exact strLe_trans hbc hab
      · rw [if_neg h2] at hbc
        rw [if_neg (h1 ▸ h2)]
        exact h1 ▸ hbc
    · by_cases h2 : b.1 = c.1
      · rw [if_neg h1] at hab
        rw [if_neg (fun hx => h1 (hx.trans h2.symm))]
        exact hab
      · rw [if_neg h1] at hab
        rw [if_neg h2] at hbc
        cases hb : b.1 with
        | true => exact absurd (hab.trans hb.symm) h1
        | false => rw [hb] at hbc; cases hbc⟩

instance : IsAntisymm (Bool × String) keyGeP :=
  ⟨fun a b hab hba => by
    unfold keyGeP keyGe at hab hba
    by_cases h : a.1 = b.1
    · rw [if_pos h] at hab
      rw [if_pos h.symm] at hba
      have h2 : a.2 = b.2 := String.ext (strLe_antisymm hba hab)
      exact Prod.ext h h2
    · rw [if_neg h] at hab
      rw [if_neg (fun hx => h hx.symm)] at hba
      exact absurd (hab.trans hba.symm) h⟩

/-! #### Structure of the sorted diff -/

/-- The reverse=True comparator puts every file key (`True` flag) before every
directory key (`False` flag): sorting a mixed key list equals sorting the file
keys and appending the sorted directory keys. -/
theorem insertionSort_flag_partition (l : List (Bool × String)) :
    List.insertionSort keyGeP l
      = List.insertionSort keyGeP (l.filter (fun p => p.1))
        ++ List.insertionSort keyGeP (l.filter (fun p => !p.1)) := by
  apply List.eq_of_perm_of_sorted (r := keyGeP)
  · exact ((List.perm_insertionSort keyGeP l).trans
      (List.filter_append_perm (fun p => p.1) l).symm).trans
      (((List.perm_insertionSort keyGeP _).symm).append
        ((List.perm_insertionSort keyGeP _).symm))
  · exact List.sorted_insertionSort keyGeP l
  · apply List.pairwise_append.mpr
    refine ⟨List.sorted_insertionSort keyGeP _, List.sorted_insertionSort keyGeP _,
      fun a ha b hb => ?_⟩
    have ha' : a.1 = true := List.of_mem_filter
      ((List.perm_insertionSort keyGeP _).mem_iff.mp ha)
    have hb' : b.1 = false := by
      simpa using List.of_mem_filter ((List.perm_insertionSort keyGeP _).mem_iff.mp hb)
    unfold keyGeP keyGe
    rw [ha', hb']
    simp

/-- On keys that all carry the same flag, inserting a pair mirrors inserting
its path into the paths. -/
theorem orderedInsert_map_snd (c : Bool) (p : Bool × String)
    (m : List (Bool × String)) (hp : p.1 = c) (hm : ∀ q ∈ m, q.1 = c) :
    (List.orderedInsert keyGeP p m).map (fun x => x.2)
      = List.orderedInsert strGeP p.2 (m.map (fun x => x.2)) := by
  induction m with
  | nil => rfl
  | cons q m' ih =>
      have hq := hm q (List.mem_cons_self q m')
      have hm' : ∀ r ∈ m', r.1 = c := fun r hr => hm r (List.mem_cons_of_mem q hr)
      have hiff : keyGeP p q ↔ strGeP p.2 q.2 := by
        unfold keyGeP keyGe strGeP
        rw [hp, hq, if_pos rfl]
      simp only [List.orderedInsert, List.map]
      by_cases h : strGeP p.2 q.2
      · rw [if_pos (hiff.mpr h), if_pos h]
        rfl
      · rw [if_neg (fun hx => h (hiff.mp hx)), if_neg h]
        simp only [List.map]
        rw [ih hm']

/-- On keys that all carry the same flag, the pair sort is the path sort. -/
theorem insertionSort_map_snd (c : Bool) (m : List (Bool × String))
    (hm : ∀ q ∈ m, q.1 = c) :
    (List.insertionSort keyGeP m).map (fun x => x.2)
      = List.insertionSort strGeP (m.map (fun x => x.2)) := by
  induction m with
  | nil => rfl
  | cons q m' ih =>
      have hq := hm q (List.mem_cons_self q m')
      have hm' : ∀ r ∈ m', r.1 = c := fun r hr => hm r (List.mem_cons_of_mem q hr)
      simp only [List.insertionSort, List.map]
      rw [orderedInsert_map_snd c q _ hq
        (fun r hr => hm' r ((List.perm_insertionSort keyGeP m').mem_iff.mp hr)),
        ih hm']

/-- C8: the diff of the artifact tree against the known-files set returns
exactly the entries whose path is not known, ordered with all plain files
before all directories and, within each group, paths in reverse lexical
order; in particular, with known files {A, B} and a tree {A, B, C, D/} where
D is an (empty) directory, it returns exactly [C, D]. -/
theorem c8_unknown_files_ordered_files_first (entries : List FsEntry)
    (known_files : List String) :
    get_unknown_files entries known_files = diffSpec entries known_files
    ∧ get_unknown_files [⟨"A", false⟩, ⟨"B", false⟩, ⟨"C", false⟩, ⟨"D", true⟩]
        ["A", "B"] = ["C", "D"] := by
  constructor
  · unfold get_unknown_files diffSpec sortPathsDesc
    rw [insertionSort_flag_partition, List.map_append,
      insertionSort_map_snd true _ (fun q hq => List.of_mem_filter hq),
      insertionSort_map_snd false _ (fun q hq => by simpa using List.of_mem_filter hq)]
    congr 1
    · congr 1
      rw [List.filter_map, List.map_map]
      rfl
    · congr 1
      rw [List.filter_map, List.map_map]
      simp only [Function.comp_def, Bool.not_not]
  · decide

end JBGet
